import Mathlib

/-! # Filesystem access layer of a local-network file/image browser

A shallow embedding of `src/server/services/filesystem.ts` and
`src/server/actions/file-actions.ts`.  Node's posix `path` functions are
modelled on the character lists underlying strings, the real filesystem is
modelled as an association list from absolute-path segment keys to nodes, and
every filesystem-touching function additionally returns the list of
filesystem calls it issued (its trace).  Errors thrown by the TypeScript code
are modelled as `Except String` values carrying the thrown message string. -/

namespace FileServer

/-- Split a character list at `'/'`, keeping empty segments (the segment
structure of JavaScript `s.split('/')` and of Node's path functions). -/
def splitCL : List Char → List (List Char)
  | [] => [[]]
  | c :: tl =>
    if c = '/' then [] :: splitCL tl
    else
      match splitCL tl with
      | [] => [[c]]
      | s :: rest => (c :: s) :: rest

/-- The segments of a string, as strings, empty segments kept. -/
def segsRaw (s : String) : List String := (splitCL s.data).map (fun cs => ⟨cs⟩)

/-- The two-character substring `".."` that `normalizePath` rejects. -/
def ddot : List Char := ['.', '.']

/-- Node's `normalizeString`: resolve `"."`, `""` and `".."` segments of a path;
with `allowAboveRoot` (used for relative paths) a `".."` that cannot pop a
previous segment is kept, otherwise it is dropped. -/
def normSegs (allowAboveRoot : Bool) : List String → List String → List String
  | acc, [] => acc
  | acc, seg :: rest =>
    if seg = "" ∨ seg = "." then normSegs allowAboveRoot acc rest
    else if seg = ".." then
      match acc.getLast? with
      | some last =>
        if last = ".." then
          normSegs allowAboveRoot (if allowAboveRoot then acc ++ [".."] else acc) rest
        else normSegs allowAboveRoot acc.dropLast rest
      | none => normSegs allowAboveRoot (if allowAboveRoot then acc ++ [".."] else acc) rest
    else normSegs allowAboveRoot (acc ++ [seg]) rest

/-- Node posix `path.normalize`: resolve the segments, restore a leading `'/'`
for absolute input and a trailing `'/'` of the input, and return `"."` for a
relative path whose resolution is empty. -/
def pathNormalize (s : String) : String :=
  if s = "" then "."
  else
    let isAbs : Bool := s.data.head? = some '/'
    let trailing : Bool := s.data.getLast? = some '/'
    let body := String.intercalate "/" (normSegs (!isAbs) [] (segsRaw s))
    let body := if body = "" ∧ isAbs = false then "." else body
    let body := if body ≠ "" ∧ trailing = true then body ++ "/" else body
    if isAbs then "/" ++ body else body

/-- Node posix `path.join` restricted to two arguments: the nonempty arguments
joined with `'/'` and normalized; all-empty input gives `"."`. -/
def pathJoin (a b : String) : String :=
  if a = "" ∧ b = "" then "."
  else if a = "" then pathNormalize b
  else if b = "" then pathNormalize a
  else pathNormalize (a ++ "/" ++ b)

/-- The scan inside Node posix `path.dirname`: walking the reversed tail of the
path (index `i` is the position of the current character), skip trailing
separators and report the index of the next separator. -/
def dirnameEnd : List Char → Nat → Bool → Option Nat
  | [], _, _ => none
  | c :: tl, i, matched =>
    if c = '/' then
      if matched then dirnameEnd tl (i - 1) matched else some i
    else dirnameEnd tl (i - 1) false

/-- Node posix `path.dirname`. -/
def dirname (s : String) : String :=
  match s.data with
  | [] => "."
  | c0 :: rest =>
    let hasRoot := c0 = '/'
    match dirnameEnd rest.reverse rest.length true with
    | none => if hasRoot then "/" else "."
    | some e => if hasRoot ∧ e = 1 then "//" else ⟨(c0 :: rest).take e⟩

/-- Node posix `path.extname`, on the slash-free file names this system feeds
it: the suffix of the last segment from its last `'.'`, empty when that dot is
the segment's first character or the segment is `".."`. -/
def extname (s : String) : String :=
  let base : String := ((segsRaw s).getLast?).getD ""
  match base.data.reverse.findIdx? (· = '.') with
  | none => ""
  | some rIdx =>
    let i := base.length - 1 - rIdx
    if i = 0 ∨ base = ".." then "" else ⟨base.data.drop i⟩

/-- The regex replacement `inputPath.replace(new RegExp ..., '')` stripping all
leading slashes. -/
def stripLeadingSlashes (s : String) : String := ⟨s.data.dropWhile (· = '/')⟩

/-- The regex replacement stripping one leading `"./"`. -/
def stripDotSlash (s : String) : String :=
  match s.data with
  | '.' :: '/' :: rest => ⟨rest⟩
  | _ => s

/-- `normalizePath` from the filesystem service: strip leading slashes, apply
Node path normalization, throw `"Invalid path"` when the result contains the
substring `".."`, then strip a leading `"./"`.  Empty and `"/"` input return
the empty string (the root) at once. -/
def normalizePath (inputPath : String) : Except String String :=
  if inputPath = "" ∨ inputPath = "/" then .ok ""
  else
    let p := pathNormalize (stripLeadingSlashes inputPath)
    if ddot <:+: p.data then .error "Invalid path"
    else .ok (stripDotSlash p)

/-- `DATA_PATH` from the configuration: the root storage directory, at its
default value (`process.env.DATA_PATH || "./data"`). -/
def DATA_PATH : String := "./data"

/-- `getAbsolutePath`: re-normalize the relative path and join it with the
configured root. -/
def getAbsolutePath (relativePath : String) : Except String String :=
  (normalizePath relativePath).map (fun n => pathJoin DATA_PATH n)

/-- Resolution of path segments against a base path: `".."` pops the last
component, `"."` and empty segments vanish, names push — the meaning a
hierarchical filesystem gives to a path string. -/
def resolveFrom (base : List String) : List String → List String
  | [] => base
  | seg :: rest =>
    if seg = "" ∨ seg = "." then resolveFrom base rest
    else if seg = ".." then resolveFrom base.dropLast rest
    else resolveFrom (base ++ [seg]) rest

/-- The canonical key of a path string: its segments resolved from the top. -/
def pathKey (s : String) : List String := resolveFrom [] (segsRaw s)

-- sanity checks of the path model against Node's documented behaviour
example : pathNormalize "a/../b" = "b" := by decide
example : pathNormalize "a//b/" = "a/b/" := by decide
example : pathNormalize "./" = "./" := by decide
example : pathNormalize "." = "." := by decide
example : pathNormalize "../x" = "../x" := by decide
example : pathNormalize "/.." = "/" := by decide
example : pathJoin "./data" "a/b" = "data/a/b" := by decide
example : pathJoin "./data" "" = "data" := by decide
example : pathJoin "./data" "." = "data" := by decide
example : dirname "a" = "." := by decide
example : dirname "a/b" = "a" := by decide
example : dirname "x/y/" = "x" := by decide
example : dirname "data/d/a.png" = "data/d" := by decide
example : extname "a.png" = ".png" := by decide
example : extname ".bashrc" = "" := by decide
example : extname "a..b" = ".b" := by decide
example : normalizePath "" = .ok "" := rfl
example : normalizePath "/" = .ok "" := rfl
example : normalizePath "." = .ok "." := rfl
example : normalizePath "./" = .ok "" := rfl
example : normalizePath "a/b" = .ok "a/b" := rfl
example : normalizePath "/a//b/" = .ok "a/b/" := rfl
example : normalizePath "../x" = .error "Invalid path" := rfl
example : normalizePath "a/../../b" = .error "Invalid path" := rfl
example : normalizePath "a..b" = .error "Invalid path" := rfl
example : pathKey "./data" = ["data"] := by decide
example : pathKey "data/a/" = ["data", "a"] := by decide

/-- ASCII lowercasing of one character (what JavaScript `toLowerCase` does on
the ASCII extension strings this system lowercases). -/
def charToLower (c : Char) : Char :=
  if 65 ≤ c.toNat ∧ c.toNat ≤ 90 then Char.ofNat (c.toNat + 32) else c

/-- ASCII lowercasing of a string. -/
def strToLower (s : String) : String := ⟨s.data.map charToLower⟩

/-- One node of the real filesystem: a regular file with its byte content and
modification time, or a directory with the size and modification time `stat`
reports for it. -/
inductive FsNode where
  | file (content : List Nat) (mtime : Nat)
  | dir (size : Nat) (mtime : Nat)
  deriving Repr, DecidableEq

/-- The real filesystem: an association list from absolute-path segment keys to
nodes (first binding wins). -/
abbrev FS := List (List String × FsNode)

/-- One call issued to the real filesystem, recorded by resolved key. -/
inductive FsCall where
  | stat (k : List String)
  | readdir (k : List String)
  | mkdir (k : List String)
  | write (k : List String)
  | writeStream (k : List String)
  | rename (src dst : List String)
  | read (k : List String)
  deriving Repr, DecidableEq

/-- `fsPromises.stat`, as a lookup (`none` models `ENOENT`). -/
def fsLookup : FS → List String → Option FsNode
  | [], _ => none
  | (k', n) :: rest, k => if k' = k then some n else fsLookup rest k

/-- Remove every binding of a key. -/
def fsErase : FS → List String → FS
  | [], _ => []
  | (k', n) :: rest, k => if k' = k then fsErase rest k else (k', n) :: fsErase rest k

/-- Write a node at a key, replacing any previous binding. -/
def fsInsert (fs : FS) (k : List String) (n : FsNode) : FS := (k, n) :: fsErase fs k

/-- `fsPromises.readdir`: the names of the immediate children of `k`, in
filesystem order. -/
def fsChildren (fs : FS) (k : List String) : List String :=
  fs.filterMap (fun e =>
    if e.1.length = k.length + 1 ∧ k <+: e.1 then (e.1.drop k.length).head? else none)

/-- The worker of `fsMkdirp`: `done` is the prefix already known to exist,
`todo` the remaining segments; a file found along the way fails the call
(`ENOTDIR`/`EEXIST`). -/
def fsMkdirpAux : FS → List String → List String → Option FS
  | fs, _, [] => some fs
  | fs, done, seg :: rest =>
    let cur := done ++ [seg]
    match fsLookup fs cur with
    | some (.file _ _) => none
    | some (.dir _ _) => fsMkdirpAux fs cur rest
    | none => fsMkdirpAux (fsInsert fs cur (.dir 0 0)) cur rest

/-- `fsPromises.mkdir` with `recursive: true`: create every missing ancestor of
`k` as a directory. -/
def fsMkdirp (fs : FS) (k : List String) : Option FS := fsMkdirpAux fs [] k

/-- `fsPromises.rename`: move the node at `src`, together with its subtree, to
`dst`; `none` models `ENOENT` on a missing source. -/
def fsRename (fs : FS) (src dst : List String) : Option FS :=
  match fsLookup fs src with
  | none => none
  | some _ =>
    some (fs.map (fun e => if src <+: e.1 then (dst ++ e.1.drop src.length, e.2) else e))

/-- `ensureDataDirectory`: `mkdir(DATA_PATH, recursive)`, a failure rethrown as
`"Failed to create data directory"`. -/
def ensureDataDirectory (fs : FS) : Except String Unit × FS × List FsCall :=
  match fsMkdirp fs (pathKey DATA_PATH) with
  | some fs' => (.ok (), fs', [.mkdir (pathKey DATA_PATH)])
  | none => (.error "Failed to create data directory", fs, [.mkdir (pathKey DATA_PATH)])

/-- `FileItem` from the shared types: one listed entry. -/
structure FileItem where
  name : String
  path : String
  type : String
  isDirectory : Bool
  size : Nat
  modifiedAt : Nat
  url : Option String
  deriving Repr, DecidableEq

/-- `DirectoryContents` from the shared types: the result of one listing. -/
structure DirectoryContents where
  path : String
  items : List FileItem
  parent : Option String
  deriving Repr, DecidableEq

mutual
/-- `OperationResult` from the shared types: the outcome of a mutation. -/
inductive OperationResult where
  | mk (success : Bool) (message : String) (data : Option ResultData)
/-- The operation-specific `data` payloads that appear in the code: the saved
path of `saveFile`, the new path of `renameItem`/`moveItem`, and the per-file
result list of `uploadFiles`. -/
inductive ResultData where
  | pathD (p : String)
  | newPathD (p : String)
  | resultsD (rs : List OperationResult)
end

/-- The `success` field of an `OperationResult`. -/
def OperationResult.success : OperationResult → Bool
  | .mk s _ _ => s

/-- The `message` field of an `OperationResult`. -/
def OperationResult.message : OperationResult → String
  | .mk _ m _ => m

/-- The `data` field of an `OperationResult`. -/
def OperationResult.data : OperationResult → Option ResultData
  | .mk _ _ d => d

/-- The UTF-8 encoding of one code point, as byte values. -/
def utf8Bytes (n : Nat) : List Nat :=
  if n < 0x80 then [n]
  else if n < 0x800 then [0xC0 + n / 64, 0x80 + n % 64]
  else if n < 0x10000 then [0xE0 + n / 4096, 0x80 + (n / 64) % 64, 0x80 + n % 64]
  else [0xF0 + n / 262144, 0x80 + (n / 4096) % 64, 0x80 + (n / 64) % 64, 0x80 + n % 64]

/-- An uppercase hexadecimal digit. -/
def hexDigit (n : Nat) : Char :=
  if n < 10 then Char.ofNat (48 + n) else Char.ofNat (65 + n - 10)

/-- The characters `encodeURIComponent` leaves unescaped. -/
def uriUnreserved (c : Char) : Bool :=
  (65 ≤ c.toNat ∧ c.toNat ≤ 90) ∨ (97 ≤ c.toNat ∧ c.toNat ≤ 122) ∨
    (48 ≤ c.toNat ∧ c.toNat ≤ 57) ∨
    ['-', '_', '.', '!', '~', '*', '\'', '(', ')'].contains c

/-- JavaScript `encodeURIComponent`: percent-encode every UTF-8 byte of every
character outside the unreserved set. -/
def encodeURIComponent (s : String) : String :=
  ⟨s.data.flatMap (fun c =>
    if uriUnreserved c then [c]
    else (utf8Bytes c.toNat).flatMap (fun b => ['%', hexDigit (b / 16), hexDigit (b % 16)]))⟩

/-- `getMimeType`: map a file name's lowercased extension through the MIME
table, defaulting to `application/octet-stream`. -/
def getMimeType (fileName : String) : String :=
  let e := strToLower (extname fileName)
  if e = ".jpg" ∨ e = ".jpeg" then "image/jpeg"
  else if e = ".png" then "image/png"
  else if e = ".gif" then "image/gif"
  else if e = ".webp" then "image/webp"
  else if e = ".svg" then "image/svg+xml"
  else if e = ".bmp" then "image/bmp"
  else if e = ".tif" ∨ e = ".tiff" then "image/tiff"
  else "application/octet-stream"

/-- The `FileItem` a listing builds from one child's `stat`: a file entry with
a `url`, a folder entry without one, or `none` — the child dropped from the
result — when the `stat` failed. -/
def childItem (fs : FS) (k : List String) (name filePath : String) :
    Option FileItem :=
  match fsLookup fs k with
  | some (.file content mtime) =>
    some { name := name, path := filePath, type := getMimeType name,
           isDirectory := false, size := content.length, modifiedAt := mtime,
           url := some ("/api/file/" ++ encodeURIComponent filePath) }
  | some (.dir size mtime) =>
    some { name := name, path := filePath, type := "folder",
           isDirectory := true, size := size, modifiedAt := mtime,
           url := none }
  | none => none

/-- The body of the `files.map` inside `listDirectory`: one optional
`FileItem` per child name.  The child's `path.join` and `getAbsolutePath` run
outside the per-child `try`, so an error there (a child name containing
`".."`) escapes the whole map, as a `Promise.all` rejection does. -/
def buildItems (fs : FS) (normalizedPath : String) :
    List String → Except String (List (Option FileItem) × List FsCall)
  | [] => .ok ([], [])
  | name :: rest =>
    let filePath := pathJoin normalizedPath name
    match getAbsolutePath filePath with
    | .error e => .error e
    | .ok abs =>
      let k := pathKey abs
      match buildItems fs normalizedPath rest with
      | .error e => .error e
      | .ok (items, tr) => .ok (childItem fs k name filePath :: items, .stat k :: tr)

/-- `listDirectory` from the filesystem service: ensure the data directory,
normalize, stat — `ENOENT` gives an empty listing with the `dirname` parent,
a non-directory target throws — then build one item per child, dropping the
children whose stat failed.  The surrounding catch turns every thrown error
into `"Failed to list directory"`. -/
def listDirectory (fs : FS) (dirPath : String) :
    Except String DirectoryContents × FS × List FsCall :=
  match ensureDataDirectory fs with
  | (.error _, fs1, tr) => (.error "Failed to list directory", fs1, tr)
  | (.ok _, fs1, tr) =>
    match normalizePath dirPath with
    | .error _ => (.error "Failed to list directory", fs1, tr)
    | .ok np =>
      match getAbsolutePath np with
      | .error _ => (.error "Failed to list directory", fs1, tr)
      | .ok abs =>
        let k := pathKey abs
        match fsLookup fs1 k with
        | none =>
          (.ok { path := np, items := [],
                 parent := if np = "" then none else some (dirname np) },
           fs1, tr ++ [.stat k])
        | some (.file _ _) => (.error "Failed to list directory", fs1, tr ++ [.stat k])
        | some (.dir _ _) =>
          match buildItems fs1 np (fsChildren fs1 k) with
          | .error _ =>
            (.error "Failed to list directory", fs1, tr ++ [.stat k, .readdir k])
          | .ok (opts, tr2) =>
            (.ok { path := np, items := opts.reduceOption,
                   parent := if np = "" then none else some (dirname np) },
             fs1, tr ++ [.stat k, .readdir k] ++ tr2)

/-- The `getDirectoryContents` server action: a thrown listing error is caught
and converted into an empty result whose parent is computed by
`split('/').slice(0, -1).join('/')` on the raw input. -/
def getDirectoryContents (fs : FS) (dirPath : String) :
    DirectoryContents × FS × List FsCall :=
  match listDirectory fs dirPath with
  | (.ok c, fs', tr) => (c, fs', tr)
  | (.error _, fs', tr) =>
    ({ path := dirPath, items := [],
       parent := if dirPath = "" then none
                 else some (String.intercalate "/" (segsRaw dirPath).dropLast) },
     fs', tr)

/-- `ERROR_MESSAGES.INVALID_NAME` from `lib/utils.ts`. -/
def ERROR_MESSAGES_INVALID_NAME : String := "The name contains invalid characters"

/-- `ERROR_MESSAGES.INVALID_FILE_TYPE` from `lib/utils.ts`. -/
def ERROR_MESSAGES_INVALID_FILE_TYPE : String := "This file type is not supported"

/-- `ERROR_MESSAGES.FILE_TOO_LARGE` from `lib/utils.ts`. -/
def ERROR_MESSAGES_FILE_TOO_LARGE : String := "The file is too large"

/-- `SUCCESS_MESSAGES.FILES_UPLOADED` from `lib/utils.ts`. -/
def SUCCESS_MESSAGES_FILES_UPLOADED : String := "Files uploaded successfully"

/-- `MAX_FILE_SIZE` from the configuration: 50MB in bytes. -/
def MAX_FILE_SIZE : Nat := 50 * 1024 * 1024

/-- `ALLOWED_FILE_TYPES` from the configuration. -/
def ALLOWED_FILE_TYPES : List String :=
  ["image/jpeg", "image/jpg", "image/png", "image/gif", "image/webp",
   "image/svg+xml", "image/svg", "image/bmp", "image/tiff", "image/heic",
   "image/heif", "application/octet-stream", "image/*"]

/-- The character class of the name-validation regex used by the `createFolder`
and `renameItem` actions: the reserved characters and the C0 control range. -/
def isReservedChar (c : Char) : Bool :=
  ['<', '>', ':', '"', '/', '\\', '|', '?', '*'].contains c || decide (c.toNat ≤ 31)

/-- The regex test of the name-validation: any reserved character present. -/
def hasReservedChar (s : String) : Bool := s.data.any isReservedChar

/-- `createFolder` from the filesystem service: normalize, join the folder
name, probe the target with `stat`, then `mkdir` recursively; thrown errors
(including an invalid path) become `"Failed to create folder"`. -/
def createFolderFS (fs : FS) (dirPath folderName : String) :
    OperationResult × FS × List FsCall :=
  match normalizePath dirPath with
  | .error _ => (.mk false "Failed to create folder" none, fs, [])
  | .ok np =>
    match getAbsolutePath (pathJoin np folderName) with
    | .error _ => (.mk false "Failed to create folder" none, fs, [])
    | .ok abs =>
      let k := pathKey abs
      match fsLookup fs k with
      | some _ =>
        (.mk false "A folder with this name already exists" none, fs, [.stat k])
      | none =>
        match fsMkdirp fs k with
        | none => (.mk false "Failed to create folder" none, fs, [.stat k, .mkdir k])
        | some fs' =>
          (.mk true "Folder created successfully" none, fs', [.stat k, .mkdir k])

/-- The `createFolder` server action: reserved-character validation of the
folder name, then the service call.  (`revalidatePath` is framework cache
invalidation, not a filesystem call, and is not modelled.) -/
def createFolder (fs : FS) (dirPath folderName : String) :
    OperationResult × FS × List FsCall :=
  if folderName = "" ∨ hasReservedChar folderName = true then
    (.mk false ERROR_MESSAGES_INVALID_NAME none, fs, [])
  else createFolderFS fs dirPath folderName

/-- `renameItem` from the filesystem service: normalize the item path, compute
the sibling path `join(dirname(normalizedPath), newName)`, probe it with
`stat`, then `rename`; thrown errors (including an invalid path from either
`getAbsolutePath`) become `"Failed to rename item"`. -/
def renameItemFS (fs : FS) (itemPath newName : String) :
    OperationResult × FS × List FsCall :=
  match normalizePath itemPath with
  | .error _ => (.mk false "Failed to rename item" none, fs, [])
  | .ok np =>
    match getAbsolutePath np with
    | .error _ => (.mk false "Failed to rename item" none, fs, [])
    | .ok abs =>
      let newPath := pathJoin (dirname np) newName
      match getAbsolutePath newPath with
      | .error _ => (.mk false "Failed to rename item" none, fs, [])
      | .ok absNew =>
        let kNew := pathKey absNew
        match fsLookup fs kNew with
        | some _ =>
          (.mk false "An item with this name already exists" none, fs, [.stat kNew])
        | none =>
          match fsRename fs (pathKey abs) kNew with
          | none =>
            (.mk false "Failed to rename item" none, fs,
             [.stat kNew, .rename (pathKey abs) kNew])
          | some fs' =>
            (.mk true "Item renamed successfully" (some (.newPathD newPath)), fs',
             [.stat kNew, .rename (pathKey abs) kNew])

/-- The `renameItem` server action: reserved-character validation of the new
name, then the service call. -/
def renameItem (fs : FS) (itemPath newName : String) :
    OperationResult × FS × List FsCall :=
  if newName = "" ∨ hasReservedChar newName = true then
    (.mk false ERROR_MESSAGES_INVALID_NAME none, fs, [])
  else renameItemFS fs itemPath newName

/-- `saveFile` from the filesystem service: normalize the directory, join the
file name, create the missing ancestors of the target's directory, probe the
target with `stat`, then write.  The large-payload branch
(`saveFileThroughStream`, payloads over 5MB) is modelled by its successful
completion — its stream-error and 30-second-timeout outcomes are real-time
behaviour outside this embedding — and both branches return the same result.
Thrown errors become `"Failed to save file"`. -/
def saveFile (fs : FS) (dirPath fileName : String) (fileBuffer : List Nat) :
    OperationResult × FS × List FsCall :=
  match normalizePath dirPath with
  | .error _ => (.mk false "Failed to save file" none, fs, [])
  | .ok np =>
    let filePath := pathJoin np fileName
    match getAbsolutePath filePath with
    | .error _ => (.mk false "Failed to save file" none, fs, [])
    | .ok abs =>
      let k := pathKey abs
      let dk := pathKey (dirname abs)
      match fsMkdirp fs dk with
      | none => (.mk false "Failed to save file" none, fs, [.mkdir dk])
      | some fs1 =>
        match fsLookup fs1 k with
        | some _ =>
          (.mk false "A file with this name already exists" none, fs1,
           [.mkdir dk, .stat k])
        | none =>
          if fileBuffer.length > 5 * 1024 * 1024 then
            (.mk true "File saved successfully" (some (.pathD filePath)),
             fsInsert fs1 k (.file fileBuffer 0), [.mkdir dk, .stat k, .writeStream k])
          else
            (.mk true "File saved successfully" (some (.pathD filePath)),
             fsInsert fs1 k (.file fileBuffer 0), [.mkdir dk, .stat k, .write k])

/-- `getFileContent` from the filesystem service: normalize and read the whole
file; thrown errors become `"Failed to read file"`. -/
def getFileContent (fs : FS) (filePath : String) :
    Except String (List Nat) × FS × List FsCall :=
  match normalizePath filePath with
  | .error _ => (.error "Failed to read file", fs, [])
  | .ok np =>
    match getAbsolutePath np with
    | .error _ => (.error "Failed to read file", fs, [])
    | .ok abs =>
      let k := pathKey abs
      match fsLookup fs k with
      | some (.file content _) => (.ok content, fs, [.read k])
      | some (.dir _ _) => (.error "Failed to read file", fs, [.read k])
      | none => (.error "Failed to read file", fs, [.read k])

/-- One file of an upload batch: name, declared MIME type, and content bytes
(`size` is the content length). -/
structure UploadFile where
  name : String
  type : String
  content : List Nat
  deriving Repr, DecidableEq

/-- `isImageByExtension`: the lowercased extension, without its dot, against
the fixed image-extension list. -/
def isImageByExtension (filename : String) : Bool :=
  let ext : String := ⟨(strToLower (extname filename)).data.drop 1⟩
  ["jpg", "jpeg", "png", "gif", "webp", "svg", "bmp", "tiff", "tif",
   "heic", "heif"].contains ext

/-- The MIME allow-list check of `uploadFiles`: a wildcard `image/*` entry
matches any `image/`-prefixed type, other entries match exactly. -/
def isTypeAllowed (t : String) : Bool :=
  ALLOWED_FILE_TYPES.any (fun a =>
    if a = "image/*" ∧ ("image/" : String).data.isPrefixOf t.data then true
    else decide (a = t))

/-- The per-file loop of `uploadFiles`: allow-list (or image-extension) check,
size check, then `saveFile`, the sub-result's message wrapped with the file
name; every file yields exactly one sub-result and a failure never stops the
loop. -/
def uploadResults (dirPath : String) :
    FS → List UploadFile → List OperationResult × FS × List FsCall
  | fs, [] => ([], fs, [])
  | fs, f :: rest =>
    if isTypeAllowed f.type = false ∧ isImageByExtension f.name = false then
      let t := uploadResults dirPath fs rest
      (.mk false ("File \"" ++ f.name ++ "\": " ++ ERROR_MESSAGES_INVALID_FILE_TYPE)
         none :: t.1, t.2.1, t.2.2)
    else if f.content.length > MAX_FILE_SIZE then
      let t := uploadResults dirPath fs rest
      (.mk false ("File \"" ++ f.name ++ "\": " ++ ERROR_MESSAGES_FILE_TOO_LARGE)
         none :: t.1, t.2.1, t.2.2)
    else
      let s := saveFile fs dirPath f.name f.content
      let t := uploadResults dirPath s.2.1 rest
      (.mk s.1.success ("File \"" ++ f.name ++ "\": " ++ s.1.message) s.1.data :: t.1,
       t.2.1, s.2.2 ++ t.2.2)

/-- The `uploadFiles` server action: an empty batch is rejected outright;
otherwise the per-file results are aggregated — all succeeded, some succeeded,
or none succeeded — with the result list as the data payload. -/
def uploadFiles (fs : FS) (dirPath : String) (files : List UploadFile) :
    OperationResult × FS × List FsCall :=
  if files = [] then (.mk false "No files provided" none, fs, [])
  else
    let t := uploadResults dirPath fs files
    if t.1.all (fun r => r.success) = true then
      (.mk true SUCCESS_MESSAGES_FILES_UPLOADED (some (.resultsD t.1)), t.2.1, t.2.2)
    else if t.1.any (fun r => r.success) = true then
      (.mk true "Some files were uploaded successfully" (some (.resultsD t.1)),
       t.2.1, t.2.2)
    else
      (.mk false "Failed to upload any files" (some (.resultsD t.1)), t.2.1, t.2.2)

mutual
/-- `listDirectoryRecursively` from the filesystem service: like
`listDirectory` but every subdirectory's contents follow its entry, depth
first.  `fuel` bounds the recursion depth — the code has no bound and
terminates because a real directory tree is finite; exhausted fuel returns the
function's failure value.  Thrown errors become
`"Failed to list directory recursively"`. -/
def listDirectoryRecursively : Nat → FS → String →
    Except String DirectoryContents × FS × List FsCall
  | 0, fs, _ => (.error "Failed to list directory recursively", fs, [])
  | fuel + 1, fs, dirPath =>
    match ensureDataDirectory fs with
    | (.error _, fs1, tr) => (.error "Failed to list directory recursively", fs1, tr)
    | (.ok _, fs1, tr) =>
      match normalizePath dirPath with
      | .error _ => (.error "Failed to list directory recursively", fs1, tr)
      | .ok np =>
        match getAbsolutePath np with
        | .error _ => (.error "Failed to list directory recursively", fs1, tr)
        | .ok abs =>
          let k := pathKey abs
          match fsLookup fs1 k with
          | none =>
            (.ok { path := np, items := [],
                   parent := if np = "" then none else some (dirname np) },
             fs1, tr ++ [.stat k])
          | some (.file _ _) =>
            (.error "Failed to list directory recursively", fs1, tr ++ [.stat k])
          | some (.dir _ _) =>
            match listRecChildren fuel np (fsChildren fs1 k) fs1 with
            | .error _ =>
              (.error "Failed to list directory recursively", fs1,
               tr ++ [.stat k, .readdir k])
            | .ok (items, fs2, tr2) =>
              (.ok { path := np, items := items,
                     parent := if np = "" then none else some (dirname np) },
               fs2, tr ++ [.stat k, .readdir k] ++ tr2)
termination_by fuel fs p => (fuel, 0)

/-- The `for` loop over child names inside `listDirectoryRecursively`.  The
child's `getAbsolutePath` runs outside the per-child `try`, so its error
escapes the loop; a failing per-child `stat` or a failing recursive call is
caught there and the loop continues (the directory's own entry, pushed before
the recursive call, is kept). -/
def listRecChildren : Nat → String → List String → FS →
    Except String (List FileItem × FS × List FsCall)
  | _, _, [], fs => .ok ([], fs, [])
  | fuel, np, name :: rest, fs =>
    let filePath := pathJoin np name
    match getAbsolutePath filePath with
    | .error e => .error e
    | .ok abs =>
      let k := pathKey abs
      match fsLookup fs k with
      | none =>
        match listRecChildren fuel np rest fs with
        | .error e => .error e
        | .ok (items, fs', tr) => .ok (items, fs', .stat k :: tr)
      | some (.file content mtime) =>
        let item : FileItem :=
          { name := name, path := filePath, type := getMimeType name,
            isDirectory := false, size := content.length, modifiedAt := mtime,
            url := some ("/api/file/" ++ encodeURIComponent filePath) }
        match listRecChildren fuel np rest fs with
        | .error e => .error e
        | .ok (items, fs', tr) => .ok (item :: items, fs', .stat k :: tr)
      | some (.dir size mtime) =>
        let item : FileItem :=
          { name := name, path := filePath, type := "folder",
            isDirectory := true, size := size, modifiedAt := mtime, url := none }
        match listDirectoryRecursively fuel fs filePath with
        | (.error _, fs1, tr1) =>
          match listRecChildren fuel np rest fs1 with
          | .error e => .error e
          | .ok (items, fs2, tr2) => .ok (item :: items, fs2, .stat k :: tr1 ++ tr2)
        | (.ok sub, fs1, tr1) =>
          match listRecChildren fuel np rest fs1 with
          | .error e => .error e
          | .ok (items, fs2, tr2) =>
            .ok (item :: sub.items ++ items, fs2, .stat k :: tr1 ++ tr2)
termination_by fuel np names fs => (fuel, names.length + 1)
end

/-! ## Helper lemmas about the path model -/

/-- The claim-side predicate of C1: the path string contains a `".."`
segment. -/
def hasDotDotSegment (s : String) : Bool := decide (".." ∈ segsRaw s)

theorem prefix_cons {α : Type} {s t : List α} (c : α) (h : s <+: t) :
    c :: s <+: c :: t := by
  rcases h with ⟨u, hu⟩
  exact ⟨u, by simp [hu]⟩

theorem splitCL_ne_nil (cs : List Char) : splitCL cs ≠ [] := by
  cases cs with
  | nil => simp [splitCL]
  | cons c tl =>
    rw [splitCL]
    split
    · simp
    · rcases h : splitCL tl with _ | ⟨s, rest⟩ <;> simp [h]

theorem splitCL_spec (cs : List Char) :
    (∀ seg ∈ splitCL cs, seg <:+: cs) ∧
      ∀ s rest, splitCL cs = s :: rest → s <+: cs := by
  induction cs with
  | nil =>
    constructor
    · intro seg h
      simp only [splitCL, List.mem_singleton] at h
      simp [h]
    · intro s rest h
      simp only [splitCL, List.cons.injEq] at h
      simp [h.1]
  | cons c tl ih =>
    by_cases hc : c = '/'
    · constructor
      · intro seg h
        rw [splitCL, if_pos hc] at h
        rcases List.mem_cons.mp h with h1 | h1
        · simp [h1]
        · rcases ih.1 seg h1 with ⟨u, v, huv⟩
          exact ⟨c :: u, v, by simp [huv]⟩
      · intro s rest h
        rw [splitCL, if_pos hc] at h
        simp only [List.cons.injEq] at h
        simp [← h.1]
    · rcases h0 : splitCL tl with _ | ⟨s0, rest0⟩
      · exact absurd h0 (splitCL_ne_nil tl)
      have hsp : splitCL (c :: tl) = (c :: s0) :: rest0 := by
        rw [splitCL, if_neg hc, h0]
      have hpre : s0 <+: tl := ih.2 s0 rest0 h0
      constructor
      · intro seg h
        rw [hsp] at h
        rcases List.mem_cons.mp h with h1 | h1
        · subst h1
          exact (prefix_cons c hpre).isInfix
        · rcases ih.1 seg (h0 ▸ List.mem_cons_of_mem s0 h1) with ⟨u, v, huv⟩
          exact ⟨c :: u, v, by simp [huv]⟩
      · intro s rest h
        rw [hsp] at h
        simp only [List.cons.injEq] at h
        exact h.1 ▸ prefix_cons c hpre

theorem ddot_infix_of_mem_segsRaw {s : String} (h : ".." ∈ segsRaw s) :
    ddot <:+: s.data := by
  rcases List.mem_map.mp h with ⟨cs, hmem, heq⟩
  have hcs : cs = ddot := by
    have h2 := congrArg String.data heq
    simpa [ddot] using h2
  exact hcs ▸ (splitCL_spec s.data).1 cs hmem

theorem stripDotSlash_sub {t : String} (h : ddot <:+: (stripDotSlash t).data) :
    ddot <:+: t.data := by
  rw [stripDotSlash] at h
  split at h
  · next rest heq =>
    rcases h with ⟨u, v, huv⟩
    exact ⟨'.' :: '/' :: u, v, by rw [heq]; simp [huv]⟩
  · exact h

theorem normalizePath_no_ddot {p s : String} (h : normalizePath p = .ok s) :
    ¬ ddot <:+: s.data := by
  simp only [normalizePath] at h
  by_cases h0 : p = "" ∨ p = "/"
  · rw [if_pos h0] at h
    cases h
    intro hdd
    rcases hdd with ⟨u, v, huv⟩
    simp [ddot] at huv
  · rw [if_neg h0] at h
    by_cases h1 : ddot <:+: (pathNormalize (stripLeadingSlashes p)).data
    · rw [if_pos h1] at h
      cases h
    · rw [if_neg h1] at h
      cases h
      intro hdd
      exact h1 (stripDotSlash_sub hdd)

theorem resolveFrom_prefix {segs : List String} (hdd : ".." ∉ segs) :
    ∀ base, base <+: resolveFrom base segs := by
  induction segs with
  | nil => intro base; simp [resolveFrom]
  | cons seg rest ih =>
    intro base
    have h1 : seg ≠ ".." := fun h => hdd (h ▸ List.mem_cons_self seg rest)
    have h2 : ".." ∉ rest := fun h => hdd (List.mem_cons_of_mem seg h)
    rw [resolveFrom]
    rcases Decidable.em (seg = "" ∨ seg = ".") with he | he
    · rw [if_pos he]
      exact ih h2 base
    · rw [if_neg he, if_neg h1]
      exact (List.prefix_append base [seg]).trans (ih h2 (base ++ [seg]))

/-! ## The claims -/

/-- C1, corrected.  Every input whose form after stripping leading slashes and
Node path normalization contains a `".."` segment is rejected by
`normalizePath` with the `InvalidPath` error (`"Invalid path"`), and on such
input the mutation and read operations issue no filesystem call at all.  The
part of the claim that had to be amended is "this rejection happens before any
filesystem call is issued": the two listing operations first run
`ensureDataDirectory`, so they issue one `mkdir` of the configured root — a
call independent of the rejected input — before rejecting it
(see the counterexample). -/
theorem C1_traversal_rejected :
    ∀ input fs nm bytes fuel,
      hasDotDotSegment (pathNormalize (stripLeadingSlashes input)) = true →
      normalizePath input = .error "Invalid path" ∧
      (createFolderFS fs input nm).2.2 = [] ∧
      (renameItemFS fs input nm).2.2 = [] ∧
      (saveFile fs input nm bytes).2.2 = [] ∧
      (getFileContent fs input).2.2 = [] ∧
      (listDirectory fs input).2.2 = [.mkdir (pathKey DATA_PATH)] ∧
      (listDirectoryRecursively (fuel + 1) fs input).2.2 = [.mkdir (pathKey DATA_PATH)] := by
  intro input fs nm bytes fuel hseg
  have hdd : ddot <:+: (pathNormalize (stripLeadingSlashes input)).data :=
    ddot_infix_of_mem_segsRaw (of_decide_eq_true hseg)
  have hnp : normalizePath input = .error "Invalid path" := by
    by_cases h0 : input = "" ∨ input = "/"
    · exfalso
      rcases h0 with h0 | h0 <;> subst h0 <;> exact absurd hseg (by decide)
    · simp only [normalizePath]
      rw [if_neg h0, if_pos hdd]
  refine ⟨hnp, ?_, ?_, ?_, ?_, ?_, ?_⟩
  · simp [createFolderFS, hnp]
  · simp [renameItemFS, hnp]
  · simp [saveFile, hnp]
  · simp [getFileContent, hnp]
  · rcases hmk : fsMkdirp fs (pathKey DATA_PATH) with _ | fs1 <;>
      simp [listDirectory, ensureDataDirectory, hmk, hnp]
  · rcases hmk : fsMkdirp fs (pathKey DATA_PATH) with _ | fs1 <;>
      simp [listDirectoryRecursively, ensureDataDirectory, hmk, hnp]

/-- Witness for C1: the traversal input `"../x"`, on the empty filesystem. -/
theorem C1_traversal_rejected_witness :
    normalizePath "../x" = .error "Invalid path" ∧
    (createFolderFS [] "../x" "n").2.2 = [] ∧
    (renameItemFS [] "../x" "n").2.2 = [] ∧
    (saveFile [] "../x" "n" [1]).2.2 = [] ∧
    (getFileContent [] "../x").2.2 = [] ∧
    (listDirectory [] "../x").2.2 = [.mkdir (pathKey DATA_PATH)] ∧
    (listDirectoryRecursively 1 [] "../x").2.2 = [.mkdir (pathKey DATA_PATH)] :=
  C1_traversal_rejected "../x" [] "n" [1] 0 (by decide)

/-- Counterexample for C1 as stated: `listDirectory` on the traversal input
`"../x"` issues a filesystem call — the `ensureDataDirectory` `mkdir` of the
configured root — before the rejection, so its trace at the rejection is not
empty. -/
theorem C1_counterexample :
    (listDirectory [] "../x").2.2 = [.mkdir ["data"]] ∧
    (listDirectory [] "../x").2.2 ≠ [] := ⟨rfl, by decide⟩

/-- C2, confirmed.  Empty or `"/"`-only input normalizes to the empty string
(the root), and for every accepted path the normalized result contains no
`".."` segment, so resolving its segments against the configured root — the
meaning of joining the root with the normalized path — keeps the root as a
prefix: the absolute path never escapes the root directory.  The root is
universally quantified, covering any configured `DATA_PATH`. -/
theorem C2_stays_within_root :
    (normalizePath "" = .ok "" ∧ normalizePath "/" = .ok "") ∧
    ∀ p s root, normalizePath p = .ok s → root <+: resolveFrom root (segsRaw s) := by
  refine ⟨⟨rfl, rfl⟩, ?_⟩
  intro p s root h
  refine resolveFrom_prefix ?_ root
  intro hdd
  exact normalizePath_no_ddot h (ddot_infix_of_mem_segsRaw hdd)

/-- Witness for C2: the accepted path `"a/b"` resolved against the default
root. -/
theorem C2_stays_within_root_witness :
    pathKey DATA_PATH <+: resolveFrom (pathKey DATA_PATH) (segsRaw "a/b") :=
  C2_stays_within_root.2 "a/b" "a/b" (pathKey DATA_PATH) rfl

/-- C3, corrected.  Listing a path whose normalized target does not exist
returns, without throwing, a listing with the normalized path, an empty item
sequence, and `parent = dirname(normalizedPath)` — after the single `stat`
that reported `ENOENT` (the root itself always exists once
`ensureDataDirectory` has run, hence `np ≠ ""`).  The part of the claim that
had to be amended: for a single-segment path the `dirname` parent is `"."`,
not the empty string that represents the containing root directory everywhere
else in the system (see the counterexample); for deeper paths it is the
containing directory's path. -/
theorem C3_missing_dir_empty_listing :
    ∀ fs fs1 dirPath np abs,
      fsMkdirp fs (pathKey DATA_PATH) = some fs1 →
      normalizePath dirPath = .ok np →
      np ≠ "" →
      getAbsolutePath np = .ok abs →
      fsLookup fs1 (pathKey abs) = none →
      listDirectory fs dirPath =
        (.ok { path := np, items := [], parent := some (dirname np) }, fs1,
         [.mkdir (pathKey DATA_PATH), .stat (pathKey abs)]) := by
  intro fs fs1 dirPath np abs h1 h2 h3 h4 h5
  simp [listDirectory, ensureDataDirectory, h1, h2, h4, h5, h3]

/-- Witness for C3: the missing path `"nope"` on the empty filesystem. -/
theorem C3_missing_dir_empty_listing_witness :
    listDirectory [] "nope" =
      (.ok { path := "nope", items := [], parent := some (dirname "nope") },
       [(["data"], FsNode.dir 0 0)],
       [.mkdir (pathKey DATA_PATH), .stat (pathKey "data/nope")]) :=
  C3_missing_dir_empty_listing [] [(["data"], FsNode.dir 0 0)] "nope" "nope"
    "data/nope" rfl rfl (by decide) rfl rfl

/-- Counterexample for C3 as stated: for the missing single-segment path
`"a"` the returned `parent` is `"."`, while the path of the containing
directory — the root — is represented as the empty string by this system
(`normalizePath` maps `""` and `"/"` to `""`, and listing the root yields
`path = ""`), so `parent` is not the containing directory's path. -/
theorem C3_counterexample :
    (listDirectory [] "a").1 =
      .ok { path := "a", items := [], parent := some "." } ∧
    some "." ≠ (some "" : Option String) := ⟨rfl, by decide⟩

/-- C4, corrected.  Listing a path whose normalized target is a file does
fail (the service throws), but the error is the catch-all
`"Failed to list directory"`: the internal not-a-directory signal
(`"Path is not a directory"`) is swallowed by the function's own catch block,
so no distinct `NotADirectory` error reaches the caller — and the wrapping
`getDirectoryContents` action then converts the failure into a non-throwing
empty listing with a recomputed parent. -/
theorem C4_file_target_fails_generically :
    ∀ fs fs1 dirPath np abs content mtime,
      fsMkdirp fs (pathKey DATA_PATH) = some fs1 →
      normalizePath dirPath = .ok np →
      getAbsolutePath np = .ok abs →
      fsLookup fs1 (pathKey abs) = some (.file content mtime) →
      (listDirectory fs dirPath).1 = .error "Failed to list directory" ∧
      (getDirectoryContents fs dirPath).1 =
        { path := dirPath, items := [],
          parent := if dirPath = "" then none
                    else some (String.intercalate "/" (segsRaw dirPath).dropLast) } := by
  intro fs fs1 dirPath np abs content mtime h1 h2 h3 h4
  have hl : listDirectory fs dirPath =
      (.error "Failed to list directory", fs1,
       [.mkdir (pathKey DATA_PATH), .stat (pathKey abs)]) := by
    simp [listDirectory, ensureDataDirectory, h1, h2, h3, h4]
  exact ⟨by rw [hl], by simp [getDirectoryContents, hl]⟩

/-- Witness for C4: a filesystem holding the regular file `f`. -/
theorem C4_file_target_fails_generically_witness :
    (listDirectory [(["data"], FsNode.dir 0 0), (["data", "f"], FsNode.file [7] 0)]
        "f").1 = .error "Failed to list directory" ∧
    (getDirectoryContents
        [(["data"], FsNode.dir 0 0), (["data", "f"], FsNode.file [7] 0)] "f").1 =
      { path := "f", items := [],
        parent := if "f" = "" then none
                  else some (String.intercalate "/" (segsRaw "f").dropLast) } :=
  C4_file_target_fails_generically
    [(["data"], FsNode.dir 0 0), (["data", "f"], FsNode.file [7] 0)]
    [(["data"], FsNode.dir 0 0), (["data", "f"], FsNode.file [7] 0)]
    "f" "f" "data/f" [7] 0 rfl rfl rfl rfl

/-- Counterexample for C4 as stated: on a filesystem where `f` is a regular
file, the listing failure carries the generic message, not the
not-a-directory one, and the `getDirectoryContents` action does not fail at
all — it returns a success-shaped empty listing. -/
theorem C4_counterexample :
    (listDirectory [(["data"], FsNode.dir 0 0), (["data", "f"], FsNode.file [7] 0)]
        "f").1 = .error "Failed to list directory" ∧
    "Failed to list directory" ≠ "Path is not a directory" ∧
    (getDirectoryContents
        [(["data"], FsNode.dir 0 0), (["data", "f"], FsNode.file [7] 0)] "f").1 =
      { path := "f", items := [], parent := some "" } := ⟨rfl, by decide, rfl⟩

/-- C5, confirmed.  A name that is empty or contains a reserved character
(`< > : " / \ | ? *` or a C0 control character, the class of the validation
regex) makes both the `createFolder` and the `renameItem` action return the
`InvalidName` failure with the filesystem untouched and an empty trace: no
filesystem call is made before the failure is returned. -/
theorem C5_invalid_name_rejected :
    ∀ fs dirPath itemPath name,
      name = "" ∨ hasReservedChar name = true →
      createFolder fs dirPath name = (.mk false ERROR_MESSAGES_INVALID_NAME none, fs, []) ∧
      renameItem fs itemPath name = (.mk false ERROR_MESSAGES_INVALID_NAME none, fs, []) := by
  intro fs dirPath itemPath name h
  constructor
  · simp only [createFolder]
    rw [if_pos h]
  · simp only [renameItem]
    rw [if_pos h]

/-- Witness for C5: the name `"a/b"` of the claim's own example. -/
theorem C5_invalid_name_rejected_witness :
    createFolder [] "" "a/b" = (.mk false ERROR_MESSAGES_INVALID_NAME none, [], []) ∧
    renameItem [] "x" "a/b" = (.mk false ERROR_MESSAGES_INVALID_NAME none, [], []) :=
  C5_invalid_name_rejected [] "" "x" "a/b" (Or.inr (by decide))

/-- C6, corrected.  For a valid new name whose computed sibling path passes
`normalizePath` — in particular any name free of the substring `".."` — an
occupied sibling makes `renameItem` return the `AlreadyExists` failure after
the single probing `stat`, with the filesystem (hence the original item)
untouched.  The part of the claim that had to be amended: a valid name
containing `".."` (such as `"a..b"`) makes the sibling-path normalization
throw, so the rename fails with the generic `"Failed to rename item"` even
when the sibling is occupied (see the counterexample). -/
theorem C6_rename_occupied_sibling :
    ∀ fs itemPath newName np absOld absNew node,
      ¬ (newName = "" ∨ hasReservedChar newName = true) →
      normalizePath itemPath = .ok np →
      getAbsolutePath np = .ok absOld →
      getAbsolutePath (pathJoin (dirname np) newName) = .ok absNew →
      fsLookup fs (pathKey absNew) = some node →
      renameItem fs itemPath newName =
        (.mk false "An item with this name already exists" none, fs,
         [.stat (pathKey absNew)]) := by
  intro fs itemPath newName np absOld absNew node hv h1 h2 h3 h4
  simp only [renameItem]
  rw [if_neg hv]
  simp [renameItemFS, h1, h2, h3, h4]

/-- The filesystem of the C6 witness: `x/y` is to be renamed to the occupied
sibling `x/z`. -/
def C6wfs : FS :=
  [(["data"], .dir 0 0), (["data", "x"], .dir 0 0),
   (["data", "x", "y"], .file [1] 0), (["data", "x", "z"], .file [2] 0)]

/-- Witness for C6: renaming `x/y` to the occupied sibling name `z`. -/
theorem C6_rename_occupied_sibling_witness :
    renameItem C6wfs "x/y" "z" =
      (.mk false "An item with this name already exists" none, C6wfs,
       [.stat (pathKey "data/x/z")]) :=
  C6_rename_occupied_sibling C6wfs "x/y" "z" "x/y" "data/x/y" "data/x/z"
    (.file [2] 0) (by decide) rfl rfl rfl rfl

/-- The filesystem of the C6 counterexample: the sibling `x/a..b` exists. -/
def C6cfs : FS :=
  [(["data"], .dir 0 0), (["data", "x"], .dir 0 0),
   (["data", "x", "y"], .file [1] 0), (["data", "x", "a..b"], .file [2] 0)]

/-- Counterexample for C6 as stated: `"a..b"` passes the name validation and
the sibling `x/a..b` is occupied, yet the rename returns the generic
`"Failed to rename item"` — not `AlreadyExists` — because the sibling path
contains the substring `".."` and its normalization throws. -/
theorem C6_counterexample :
    ¬ ("a..b" = "" ∨ hasReservedChar "a..b" = true) ∧
    fsLookup C6cfs (pathKey "data/x/a..b") = some (.file [2] 0) ∧
    (renameItem C6cfs "x/y" "a..b").1 = .mk false "Failed to rename item" none ∧
    (renameItem C6cfs "x/y" "a..b").2.1 = C6cfs ∧
    "Failed to rename item" ≠ "An item with this name already exists" :=
  ⟨by decide, rfl, rfl, rfl, by decide⟩

theorem fsLookup_fsInsert (fs : FS) (k : List String) (n : FsNode) :
    fsLookup (fsInsert fs k n) k = some n := by
  simp [fsInsert, fsLookup]

/-- C7, confirmed.  On an unoccupied target whose directory path normalizes
and whose missing ancestors can be created, `saveFile` succeeds, reports the
joined relative path in its data payload, and a subsequent `getFileContent` of
that path returns exactly the saved bytes.  The byte sequence is universally
quantified, so the property covers payloads on both sides of the 5MB
streaming threshold (the proof splits on that branch; both write the same
content). -/
theorem C7_save_then_read_roundtrip :
    ∀ fs dirPath fileName bytes np absF fs1 nf,
      normalizePath dirPath = .ok np →
      getAbsolutePath (pathJoin np fileName) = .ok absF →
      fsMkdirp fs (pathKey (dirname absF)) = some fs1 →
      fsLookup fs1 (pathKey absF) = none →
      normalizePath (pathJoin np fileName) = .ok nf →
      getAbsolutePath nf = .ok absF →
      (saveFile fs dirPath fileName bytes).1.success = true ∧
      (saveFile fs dirPath fileName bytes).1.data
        = some (.pathD (pathJoin np fileName)) ∧
      (getFileContent (saveFile fs dirPath fileName bytes).2.1
          (pathJoin np fileName)).1 = .ok bytes := by
  intro fs dirPath fileName bytes np absF fs1 nf h1 h2 h3 h4 h5 h6
  have hs : (saveFile fs dirPath fileName bytes).1
        = .mk true "File saved successfully" (some (.pathD (pathJoin np fileName))) ∧
      (saveFile fs dirPath fileName bytes).2.1
        = fsInsert fs1 (pathKey absF) (.file bytes 0) := by
    by_cases hb : bytes.length > 5 * 1024 * 1024 <;>
      simp [saveFile, h1, h2, h3, h4, hb]
  refine ⟨by rw [hs.1]; rfl, by rw [hs.1]; rfl, ?_⟩
  rw [hs.2]
  simp [getFileContent, h5, h6, fsLookup_fsInsert]

/-- Witness for C7: saving three bytes as `d/a.png` and reading them back. -/
theorem C7_save_then_read_roundtrip_witness :
    (saveFile [(["data"], FsNode.dir 0 0)] "d" "a.png" [1, 2, 3]).1.success = true ∧
    (saveFile [(["data"], FsNode.dir 0 0)] "d" "a.png" [1, 2, 3]).1.data
      = some (.pathD (pathJoin "d" "a.png")) ∧
    (getFileContent (saveFile [(["data"], FsNode.dir 0 0)] "d" "a.png" [1, 2, 3]).2.1
        (pathJoin "d" "a.png")).1 = .ok [1, 2, 3] :=
  C7_save_then_read_roundtrip [(["data"], FsNode.dir 0 0)] "d" "a.png" [1, 2, 3]
    "d" "data/d/a.png" [(["data", "d"], FsNode.dir 0 0), (["data"], FsNode.dir 0 0)]
    "d/a.png" rfl rfl rfl rfl rfl rfl

theorem uploadResults_length (dirPath : String) :
    ∀ files fs, ((uploadResults dirPath fs files).1).length = files.length := by
  intro files
  induction files with
  | nil => intro fs; rfl
  | cons f rest ih =>
    intro fs
    simp only [uploadResults]
    split
    · simpa using ih fs
    · split
      · simpa using ih fs
      · simpa using ih (saveFile fs dirPath f.name f.content).2.1

/-- C8, confirmed.  The upload batch succeeds exactly when at least one
per-file sub-result succeeded; every file of a nonempty batch yields exactly
one sub-result (failures do not abort the remaining files); the data payload
of a nonempty batch is the full sub-result list; and a partial success carries
the message `"Some files were uploaded successfully"`, distinct from both the
total-success and the total-failure messages. -/
theorem C8_upload_batch_aggregation :
    ∀ fs dirPath files,
      ((uploadFiles fs dirPath files).1.success = true ↔
        (uploadResults dirPath fs files).1.any (fun r => r.success) = true) ∧
      (uploadResults dirPath fs files).1.length = files.length ∧
      (files ≠ [] →
        (uploadFiles fs dirPath files).1.data
          = some (.resultsD (uploadResults dirPath fs files).1)) ∧
      ((uploadResults dirPath fs files).1.any (fun r => r.success) = true ∧
          ¬ (uploadResults dirPath fs files).1.all (fun r => r.success) = true →
        (uploadFiles fs dirPath files).1.message
            = "Some files were uploaded successfully" ∧
        (uploadFiles fs dirPath files).1.message ≠ SUCCESS_MESSAGES_FILES_UPLOADED ∧
        (uploadFiles fs dirPath files).1.message ≠ "Failed to upload any files") := by
  intro fs dirPath files
  by_cases hnil : files = []
  · subst hnil
    exact ⟨by simp [uploadFiles, uploadResults, OperationResult.success],
      rfl, fun h => absurd rfl h, fun hp => by simp [uploadResults] at hp⟩
  · have hlen := uploadResults_length dirPath files fs
    have hne : (uploadResults dirPath fs files).1 ≠ [] := by
      intro h
      rw [h] at hlen
      exact hnil (List.length_eq_zero.mp hlen.symm)
    by_cases hall : (uploadResults dirPath fs files).1.all (fun r => r.success) = true
    · have hany : (uploadResults dirPath fs files).1.any (fun r => r.success) = true := by
        rcases List.exists_cons_of_ne_nil hne with ⟨r0, rs, hcons⟩
        rw [hcons] at hall ⊢
        simp only [List.all_cons, Bool.and_eq_true] at hall
        simp [hall.1]
      have hu : uploadFiles fs dirPath files =
          (.mk true SUCCESS_MESSAGES_FILES_UPLOADED
             (some (.resultsD (uploadResults dirPath fs files).1)),
           (uploadResults dirPath fs files).2.1,
           (uploadResults dirPath fs files).2.2) := by
        simp [uploadFiles, hnil, hall]
      refine ⟨?_, hlen, fun _ => by rw [hu]; rfl, fun hp => absurd hall hp.2⟩
      rw [hu]
      exact iff_of_true rfl hany
    · by_cases hany : (uploadResults dirPath fs files).1.any (fun r => r.success) = true
      · have hu : uploadFiles fs dirPath files =
            (.mk true "Some files were uploaded successfully"
               (some (.resultsD (uploadResults dirPath fs files).1)),
             (uploadResults dirPath fs files).2.1,
             (uploadResults dirPath fs files).2.2) := by
          simp [uploadFiles, hnil, hall, hany]
        refine ⟨?_, hlen, fun _ => by rw [hu]; rfl,
          fun _ => ⟨by rw [hu]; rfl,
            by
              rw [hu]
              show ("Some files were uploaded successfully" : String)
                ≠ SUCCESS_MESSAGES_FILES_UPLOADED
              decide,
            by
              rw [hu]
              show ("Some files were uploaded successfully" : String)
                ≠ "Failed to upload any files"
              decide⟩⟩
        rw [hu]
        exact iff_of_true rfl hany
      · have hu : uploadFiles fs dirPath files =
            (.mk false "Failed to upload any files"
               (some (.resultsD (uploadResults dirPath fs files).1)),
             (uploadResults dirPath fs files).2.1,
             (uploadResults dirPath fs files).2.2) := by
          simp [uploadFiles, hnil, hall, hany]
        refine ⟨?_, hlen, fun _ => by rw [hu]; rfl, fun hp => absurd hp.1 hany⟩
        rw [hu]
        exact iff_of_false (by simp [OperationResult.success]) hany

/-- The filesystem of the C8 witness. -/
def C8wfs : FS := [(["data"], .dir 0 0)]

/-- The batch of the C8 witness: two valid image files around one file of a
disallowed type. -/
def C8files : List UploadFile :=
  [⟨"a.png", "image/png", [1]⟩, ⟨"c.txt", "text/plain", [2]⟩,
   ⟨"b.png", "image/png", [3]⟩]

/-- Witness for C8: with 2 of 3 files valid the batch succeeds, reports the
partial-success message, and enumerates all three outcomes. -/
theorem C8_upload_batch_aggregation_witness :
    (uploadFiles C8wfs "d" C8files).1.success = true ∧
    (uploadFiles C8wfs "d" C8files).1.message
      = "Some files were uploaded successfully" ∧
    (uploadFiles C8wfs "d" C8files).1.data
      = some (.resultsD (uploadResults "d" C8wfs C8files).1) ∧
    (uploadResults "d" C8wfs C8files).1.length = C8files.length := by
  have h := C8_upload_batch_aggregation C8wfs "d" C8files
  have hall : ¬ ((uploadResults "d" C8wfs C8files).1.all fun r => r.success) = true :=
    fun hc => Bool.noConfusion (show (false : Bool) = true from hc)
  exact ⟨h.1.mpr rfl, (h.2.2.2 ⟨rfl, hall⟩).1,
    h.2.2.1 (by simp [C8files]), h.2.1⟩

theorem childItem_url (fs : FS) (k : List String) (name filePath : String)
    (it : FileItem) (h : childItem fs k name filePath = some it) :
    it.url.isSome = true ↔ it.isDirectory = false := by
  rw [childItem] at h
  rcases hl : fsLookup fs k with _ | node <;> simp only [hl] at h
  · cases h
  · rcases node with ⟨content, mtime⟩ | ⟨size, mtime⟩ <;> simp only [] at h <;>
      cases h <;> simp

theorem buildItems_url (fs : FS) (np : String) :
    ∀ names opts tr, buildItems fs np names = .ok (opts, tr) →
      ∀ o ∈ opts, ∀ it, o = some it →
        (it.url.isSome = true ↔ it.isDirectory = false) := by
  intro names
  induction names with
  | nil =>
    intro opts tr h o ho it hit
    simp only [buildItems, Except.ok.injEq, Prod.mk.injEq] at h
    rw [← h.1] at ho
    simp at ho
  | cons name rest ih =>
    intro opts tr h o ho it hit
    rw [buildItems] at h
    rcases hga : getAbsolutePath (pathJoin np name) with e | abs <;> simp only [hga] at h
    · cases h
    rcases hb : buildItems fs np rest with e | ⟨items, tr2⟩ <;> simp only [hb] at h
    · cases h
    simp only [Except.ok.injEq, Prod.mk.injEq] at h
    rw [← h.1] at ho
    rcases List.mem_cons.mp ho with h1 | h1
    · exact childItem_url fs (pathKey abs) name (pathJoin np name) it (h1 ▸ hit)
    · exact ih items tr2 hb o h1 it hit

theorem listDirectory_url (fs : FS) (p : String) (c : DirectoryContents)
    (h : (listDirectory fs p).1 = .ok c) :
    ∀ it ∈ c.items, it.url.isSome = true ↔ it.isDirectory = false := by
  intro it hit
  simp only [listDirectory] at h
  rcases hmk : fsMkdirp fs (pathKey DATA_PATH) with _ | fs1 <;>
    simp only [ensureDataDirectory, hmk] at h
  · cases h
  rcases hnp : normalizePath p with e | np <;> simp only [hnp] at h
  · cases h
  rcases hab : getAbsolutePath np with e | abs <;> simp only [hab] at h
  · cases h
  rcases hl : fsLookup fs1 (pathKey abs) with _ | node <;> simp only [hl] at h
  · cases h
    simp at hit
  rcases node with ⟨content, mtime⟩ | ⟨size, mtime⟩
  · cases h
  rcases hbi : buildItems fs1 np (fsChildren fs1 (pathKey abs)) with e | ⟨opts, tr2⟩ <;>
    simp only [hbi] at h
  · cases h
  cases h
  exact buildItems_url fs1 np _ opts tr2 hbi (some it)
    (List.reduceOption_mem_iff.mp hit) it rfl

theorem listRecChildren_url (fuel : Nat)
    (ihf : ∀ fs p c, (listDirectoryRecursively fuel fs p).1 = .ok c →
      ∀ it ∈ c.items, it.url.isSome = true ↔ it.isDirectory = false) :
    ∀ names np fs items fs2 tr,
      listRecChildren fuel np names fs = .ok (items, fs2, tr) →
      ∀ it ∈ items, it.url.isSome = true ↔ it.isDirectory = false := by
  intro names
  induction names with
  | nil =>
    intro np fs items fs2 tr h it hit
    simp only [listRecChildren, Except.ok.injEq, Prod.mk.injEq] at h
    rw [← h.1] at hit
    simp at hit
  | cons name rest ih =>
    intro np fs items fs2 tr h it hit
    rw [listRecChildren] at h
    rcases hga : getAbsolutePath (pathJoin np name) with e | abs <;> simp only [hga] at h
    · cases h
    rcases hl : fsLookup fs (pathKey abs) with _ | node <;> simp only [hl] at h
    · rcases hc : listRecChildren fuel np rest fs with e | ⟨items1, fs1, tr1⟩ <;>
        simp only [hc] at h
      · cases h
      simp only [Except.ok.injEq, Prod.mk.injEq] at h
      rw [← h.1] at hit
      exact ih np fs items1 fs1 tr1 hc it hit
    rcases node with ⟨content, mtime⟩ | ⟨size, mtime⟩
    · rcases hc : listRecChildren fuel np rest fs with e | ⟨items1, fs1, tr1⟩ <;>
        simp only [hc] at h
      · cases h
      simp only [Except.ok.injEq, Prod.mk.injEq] at h
      rw [← h.1] at hit
      rcases List.mem_cons.mp hit with h1 | h1
      · rw [h1]; simp
      · exact ih np fs items1 fs1 tr1 hc it h1
    · rcases hrec : listDirectoryRecursively fuel fs (pathJoin np name) with ⟨r, fsr, trr⟩
      rcases r with e | sub
      · simp only [hrec] at h
        rcases hc : listRecChildren fuel np rest fsr with e2 | ⟨items1, fs1, tr1⟩ <;>
          simp only [hc] at h
        · cases h
        simp only [Except.ok.injEq, Prod.mk.injEq] at h
        rw [← h.1] at hit
        rcases List.mem_cons.mp hit with h1 | h1
        · rw [h1]; simp
        · exact ih np fsr items1 fs1 tr1 hc it h1
      · simp only [hrec] at h
        rcases hc : listRecChildren fuel np rest fsr with e2 | ⟨items1, fs1, tr1⟩ <;>
          simp only [hc] at h
        · cases h
        simp only [Except.ok.injEq, Prod.mk.injEq] at h
        rw [← h.1] at hit
        rcases List.mem_cons.mp hit with h1 | h1
        · rw [h1]; simp
        rcases List.mem_append.mp h1 with h2 | h2
        · exact ihf fs (pathJoin np name) sub (by rw [hrec]) it h2
        · exact ih np fsr items1 fs1 tr1 hc it h2

theorem listDirectoryRecursively_url :
    ∀ fuel fs p c, (listDirectoryRecursively fuel fs p).1 = .ok c →
      ∀ it ∈ c.items, it.url.isSome = true ↔ it.isDirectory = false := by
  intro fuel
  induction fuel with
  | zero =>
    intro fs p c h
    rw [listDirectoryRecursively] at h
    cases h
  | succ fuel ihf =>
    intro fs p c h it hit
    rw [listDirectoryRecursively] at h
    rcases hmk : fsMkdirp fs (pathKey DATA_PATH) with _ | fs1 <;>
      simp only [ensureDataDirectory, hmk] at h
    · cases h
    rcases hnp : normalizePath p with e | np <;> simp only [hnp] at h
    · cases h
    rcases hab : getAbsolutePath np with e | abs <;> simp only [hab] at h
    · cases h
    rcases hl : fsLookup fs1 (pathKey abs) with _ | node <;> simp only [hl] at h
    · cases h
      simp at hit
    rcases node with ⟨content, mtime⟩ | ⟨size, mtime⟩
    · cases h
    rcases hc : listRecChildren fuel np (fsChildren fs1 (pathKey abs)) fs1 with
        e | ⟨items, fs2, tr2⟩ <;> simp only [hc] at h
    · cases h
    cases h
    exact listRecChildren_url fuel ihf _ np fs1 items fs2 tr2 hc it hit

/-- C9, confirmed.  In every listing produced by `listDirectory` and by
`listDirectoryRecursively` (for any recursion bound), an entry carries a `url`
exactly when it is a file: folder entries never carry one. -/
theorem C9_url_iff_file :
    (∀ fs p c, (listDirectory fs p).1 = .ok c →
      ∀ it ∈ c.items, it.url.isSome = true ↔ it.isDirectory = false) ∧
    (∀ fuel fs p c, (listDirectoryRecursively fuel fs p).1 = .ok c →
      ∀ it ∈ c.items, it.url.isSome = true ↔ it.isDirectory = false) :=
  ⟨listDirectory_url, listDirectoryRecursively_url⟩

/-- The filesystem of the C9 witness. -/
def C9wfs : FS := [(["data"], .dir 0 0), (["data", "a.png"], .file [5] 3)]

/-- The entry the C9 witness listing produces for `a.png`. -/
def C9item : FileItem :=
  { name := "a.png", path := "a.png", type := "image/png", isDirectory := false,
    size := 1, modifiedAt := 3, url := some "/api/file/a.png" }

/-- Witness for C9: the single file entry of a concrete listing of the root
carries a `url` exactly as it is not a directory. -/
theorem C9_url_iff_file_witness :
    C9item.url.isSome = true ↔ C9item.isDirectory = false :=
  C9_url_iff_file.1 C9wfs "" { path := "", items := [C9item], parent := none }
    rfl C9item (List.mem_singleton.mpr rfl)

/-- C10, corrected.  `saveFile` applies no reserved-character validation: under
the usual preconditions (directory path normalizes, ancestors creatable,
target unoccupied) it succeeds for any file name the join of which passes
`normalizePath`, including names containing `/` or characters such as `<` and
`:` that `createFolder` and `renameItem` reject with `InvalidName`, creating
the missing intermediate directories and writing the file.  The part of the
claim that had to be amended: "free of `..` segments" must be "free of the
`..` substring" — a name like `a..b` contains no `..` segment, yet the joined
path fails `normalizePath`'s substring check and `saveFile` returns the
generic `"Failed to save file"` without creating anything (see the
counterexample). -/
theorem C10_save_no_name_validation :
    ∀ fs dirPath fileName bytes np absF fs1,
      normalizePath dirPath = .ok np →
      getAbsolutePath (pathJoin np fileName) = .ok absF →
      fsMkdirp fs (pathKey (dirname absF)) = some fs1 →
      fsLookup fs1 (pathKey absF) = none →
      (saveFile fs dirPath fileName bytes).1.success = true ∧
      (saveFile fs dirPath fileName bytes).2.1
        = fsInsert fs1 (pathKey absF) (.file bytes 0) := by
  intro fs dirPath fileName bytes np absF fs1 h1 h2 h3 h4
  by_cases hb : bytes.length > 5 * 1024 * 1024 <;>
    simp [saveFile, h1, h2, h3, h4, hb, OperationResult.success]

/-- Witness for C10: the name `a<b/c:d.png` — rejected by the
`createFolder`/`renameItem` validation — is saved by `saveFile`, with the
intermediate directory `a<b` created. -/
theorem C10_save_no_name_validation_witness :
    hasReservedChar "a<b/c:d.png" = true ∧
    (saveFile [(["data"], FsNode.dir 0 0)] "d" "a<b/c:d.png" [9]).1.success = true ∧
    (saveFile [(["data"], FsNode.dir 0 0)] "d" "a<b/c:d.png" [9]).2.1
      = fsInsert
          [(["data", "d", "a<b"], FsNode.dir 0 0), (["data", "d"], FsNode.dir 0 0),
           (["data"], FsNode.dir 0 0)]
          (pathKey "data/d/a<b/c:d.png") (.file [9] 0) :=
  ⟨by decide,
   C10_save_no_name_validation [(["data"], FsNode.dir 0 0)] "d" "a<b/c:d.png" [9]
     "d" "data/d/a<b/c:d.png"
     [(["data", "d", "a<b"], FsNode.dir 0 0), (["data", "d"], FsNode.dir 0 0),
      (["data"], FsNode.dir 0 0)]
     rfl rfl rfl rfl⟩

/-- The filesystem of the C10 counterexample: the destination directory `d`
exists. -/
def C10cfs : FS := [(["data"], .dir 0 0), (["data", "d"], .dir 0 0)]

/-- Counterexample for C10 as stated: the file name `a..b` is free of `..`
segments (as is the whole joined destination path), yet `saveFile` does not
join-and-save it — it fails with the generic `"Failed to save file"` and
leaves the filesystem untouched, because `normalizePath` rejects the `..`
substring. -/
theorem C10_counterexample :
    hasDotDotSegment "a..b" = false ∧
    hasDotDotSegment (pathJoin "d" "a..b") = false ∧
    (saveFile C10cfs "d" "a..b" [1]).1 = .mk false "Failed to save file" none ∧
    (saveFile C10cfs "d" "a..b" [1]).2.1 = C10cfs :=
  ⟨by decide, by decide, rfl, rfl⟩

end FileServer
